import Mathlib

/-
Verification development for the gemini-workspace-reports repository.
The repository consists of a single routine, user_shared_gems, in
src/gem sharing/python/utils.py.  The routine authenticates against the
Drive API, pages through a file listing, reshapes every returned file
object into one report row (partitioning permission entries into editor
and viewer identity lists), and normalizes the three timestamp columns.

The shallow embedding below models the dictionaries of the API response
as structures with optional fields (a missing dictionary key is none),
the paginated loop as a fuel-indexed recursion over an abstract Drive
service (a function from the request record the code builds to a result
that is either an error, modelling a raised exception, or a response
page), and the pandas timestamp normalization as an executable parse
plus format function mirroring to_datetime with coercion of failures
followed by strftime and fillna.
-/

deriving instance DecidableEq for Except

namespace GemReports

/-- The single-quote character, used when the code interpolates values into
the Drive query string. -/
def sq : String := String.singleton (Char.ofNat 39)

/-- MIME type constant GEM_MIME_TYPE from the source. -/
def GEM_MIME_TYPE : String := "application/vnd.google-gemini.gem"

/-- One element of the owners array of a file object; only the
emailAddress key is read by the code. -/
structure OwnerInfo where
  emailAddress : Option String
  deriving DecidableEq, Repr

/-- One permission entry of a file object, with the four keys the code
reads.  A key absent from the dictionary is none. -/
structure Permission where
  emailAddress : Option String
  displayName : Option String
  domain : Option String
  role : Option String
  deriving DecidableEq, Repr

/-- A file object from a page of the Drive listing, with the keys the
code reads.  owners is none when the key is absent (the code then
substitutes the default singleton dictionary list). -/
structure DriveFile where
  name : Option String
  owners : Option (List OwnerInfo)
  createdTime : Option String
  modifiedTime : Option String
  webViewLink : Option String
  viewedByMeTime : Option String
  permissions : Option (List Permission)
  deriving DecidableEq, Repr

/-- The part of the query string before the trashed clause:
mimeType = GEM_MIME_TYPE and owner in owners. -/
def queryOwnerPart (owner : String) : String :=
  "mimeType = " ++ sq ++ GEM_MIME_TYPE ++ sq ++ " and " ++ sq ++ owner
    ++ sq ++ " in owners"

/-- The f-string query of line 14 of the source. -/
def buildQuery (owner : String) : String :=
  queryOwnerPart owner ++ " and trashed = false"

/-- The fields string of line 15 of the source. -/
def fieldsSpec : String :=
  "nextPageToken, files(id, name, owners, createdTime, modifiedTime, webViewLink, viewedByMeTime, permissions)"

/-- The keyword arguments the code passes to service.files().list on
every iteration of the pagination loop. -/
structure ListRequest where
  q : String
  pageSize : Nat
  supportsAllDrives : Bool
  includeItemsFromAllDrives : Bool
  fields : String
  pageToken : Option String
  deriving DecidableEq, Repr

/-- The request record built at lines 20 to 27 of the source. -/
def buildRequest (owner : String) (tok : Option String) : ListRequest :=
  { q := buildQuery owner
    pageSize := 100
    supportsAllDrives := true
    includeItemsFromAllDrives := true
    fields := fieldsSpec
    pageToken := tok }

/-- One page of results: the files key (defaulting to the empty list,
as the code uses results.get) and the optional nextPageToken. -/
structure ListResponse where
  files : List DriveFile
  nextPageToken : Option String
  deriving DecidableEq, Repr

/-- The external Drive endpoint: a function from the request the code
sends to either an error (a raised exception carrying a message) or a
response page. -/
abbrev DriveService := ListRequest → Except String ListResponse

/-- Python truthiness of an optional string value: None and the empty
string are falsy, every other string is truthy. -/
def truthyS : Option String → Bool
  | none => false
  | some s => !(s == "")

/-- The pagination loop of lines 19 to 31: issue the list call with the
current pageToken, accumulate the files of the page, continue with the
nextPageToken of the response, and stop as soon as that token is falsy,
mirroring the Python exit test if not page_token: the loop breaks both
on a missing token and on an empty-string token.  The Nat argument is
fuel bounding the number of iterations modelled; none as the overall
result means the loop did not finish within the fuel (the Python loop
would still be running). -/
def fetchAll (owner : String) (srv : DriveService) :
    Nat → Option String → Option (Except String (List DriveFile))
  | 0, _ => none
  | fuel + 1, tok =>
    match srv (buildRequest owner tok) with
    | Except.error e => some (Except.error e)
    | Except.ok resp =>
      if truthyS resp.nextPageToken then
        match fetchAll owner srv fuel resp.nextPageToken with
        | none => none
        | some (Except.error e) => some (Except.error e)
        | some (Except.ok rest) => some (Except.ok (resp.files ++ rest))
      else some (Except.ok resp.files)

/-- One step of the Python or-chain: the first operand if it is truthy,
otherwise the second. -/
def firstTruthy : Option String → String → String
  | none, d => d
  | some s, d => if s == "" then d else s

/-- Line 40 of the source: identity priority chain
emailAddress or displayName or domain or Unknown. -/
def resolveIdentity (p : Permission) : String :=
  firstTruthy p.emailAddress (firstTruthy p.displayName (firstTruthy p.domain "Unknown"))

/-- Line 34 of the source: file.get of owners with default a singleton
empty dictionary, index 0, then get of emailAddress with default
Unknown.  Returns none exactly when the owners key is present but holds
an empty list, in which case the Python indexing raises IndexError. -/
def ownerEmailOf (f : DriveFile) : Option String :=
  match f.owners with
  | none => some "Unknown"
  | some [] => none
  | some (o :: _) => some (o.emailAddress.getD "Unknown")

/-- Lines 35 to 48 of the source: walk the permission entries in order,
resolve each identity, skip an entry whose identity equals the owner
email, send role writer to the editors list, roles reader and commenter
to the viewers list, and every other role to neither. -/
def collectEV (oe : String) : List Permission → List String × List String
  | [] => ([], [])
  | p :: ps =>
    let rest := collectEV oe ps
    let idn := resolveIdentity p
    if idn = oe then rest
    else if p.role = some "writer" then (idn :: rest.1, rest.2)
    else if p.role = some "reader" ∨ p.role = some "commenter" then
      (rest.1, idn :: rest.2)
    else rest

/-- One row of the report before timestamp normalization, with the
eight columns of the dictionary built at lines 49 to 58: File Name,
URL, Owner, Editor(s), Viewer(s), Created, Modified, Opened by Me. -/
structure Row where
  fileName : Option String
  url : Option String
  owner : String
  editors : String
  viewers : String
  created : Option String
  modified : Option String
  openedByMe : String
  deriving DecidableEq, Repr

/-- Lines 33 to 59 for a single file: the row dictionary.  none models
the IndexError raised at line 34 when the owners key holds an empty
list. -/
def rowOfFile (f : DriveFile) : Option Row :=
  match ownerEmailOf f with
  | none => none
  | some oe =>
    let ev := collectEV oe (f.permissions.getD [])
    some
      { fileName := f.name
        url := f.webViewLink
        owner := oe
        editors := String.intercalate ", " ev.1
        viewers := String.intercalate ", " ev.2
        created := f.createdTime
        modified := f.modifiedTime
        openedByMe := f.viewedByMeTime.getD "Never" }

/-- The loop over all_files building data_rows, in order. -/
def buildRows : List DriveFile → Option (List Row)
  | [] => some []
  | f :: fs =>
    match rowOfFile f, buildRows fs with
    | some r, some rs => some (r :: rs)
    | _, _ => none

/-- Numeric value of a decimal digit character. -/
def digitVal (c : Char) : Nat := c.toNat - 48

/-- Executable model of the datetime parsing performed by
pd.to_datetime on the timestamp strings of the Drive API: an ISO-8601
style value YYYY-MM-DD, optionally followed by a T and a time part,
with the month in 1 to 12 and the day in 1 to 31.  Any other value
fails to parse (errors coerce, giving NaT). -/
def parseDate (s : String) : Option (Nat × Nat × Nat) :=
  match s.toList with
  | y1 :: y2 :: y3 :: y4 :: h1 :: m1 :: m2 :: h2 :: d1 :: d2 :: rest =>
    if y1.isDigit ∧ y2.isDigit ∧ y3.isDigit ∧ y4.isDigit
        ∧ h1 = Char.ofNat 45 ∧ h2 = Char.ofNat 45
        ∧ m1.isDigit ∧ m2.isDigit ∧ d1.isDigit ∧ d2.isDigit
        ∧ (rest = [] ∨ rest.head? = some (Char.ofNat 84)) then
      let y := 1000 * digitVal y1 + 100 * digitVal y2 + 10 * digitVal y3 + digitVal y4
      let m := 10 * digitVal m1 + digitVal m2
      let d := 10 * digitVal d1 + digitVal d2
      if 1 ≤ m ∧ m ≤ 12 ∧ 1 ≤ d ∧ d ≤ 31 then some (y, m, d) else none
    else none
  | _ => none

/-- Two-digit zero-padded decimal rendering. -/
def pad2 (n : Nat) : String := if n < 10 then "0" ++ toString n else toString n

/-- Four-digit zero-padded decimal rendering. -/
def pad4 (n : Nat) : String :=
  if n < 10 then "000" ++ toString n
  else if n < 100 then "00" ++ toString n
  else if n < 1000 then "0" ++ toString n
  else toString n

/-- strftime with format month slash day slash year, as at line 64. -/
def fmtDateMMDDYYYY (ymd : Nat × Nat × Nat) : String :=
  pad2 ymd.2.1 ++ "/" ++ pad2 ymd.2.2 ++ "/" ++ pad4 ymd.1

/-- Normalization of one string cell: parse, format on success, and the
empty string on failure (NaT after strftime is NaN, then fillna). -/
def normalizeStr (s : String) : String :=
  match parseDate s with
  | some ymd => fmtDateMMDDYYYY ymd
  | none => ""

/-- Normalization of one optional cell: a missing value is NaT and ends
as the empty string. -/
def normalizeOpt : Option String → String
  | none => ""
  | some s => normalizeStr s

/-- One row of the report after timestamp normalization: the same eight
columns, with Created, Modified and Opened by Me now strings in
month slash day slash year form or empty. -/
structure NormRow where
  fileName : Option String
  url : Option String
  owner : String
  editors : String
  viewers : String
  created : String
  modified : String
  openedByMe : String
  deriving DecidableEq, Repr

/-- Lines 61 to 65 applied to one row: normalize the three timestamp
columns and leave the rest unchanged. -/
def normalizeRow (r : Row) : NormRow :=
  { fileName := r.fileName
    url := r.url
    owner := r.owner
    editors := r.editors
    viewers := r.viewers
    created := normalizeOpt r.created
    modified := normalizeOpt r.modified
    openedByMe := normalizeStr r.openedByMe }

/-- Lines 60 to 65: the normalization pass over the data frame.  The
source guards it behind a non-emptiness test; mapping over the empty
list of rows is identical, so no guard is needed here. -/
def normalizeDF (rows : List Row) : List NormRow :=
  rows.map normalizeRow

/-- The whole routine user_shared_gems over an abstract Drive service:
page through the listing, reshape every file into a row, normalize the
timestamp columns, and return the table.  The outer none means the
pagination loop exceeded the fuel; an error result is a propagated
exception (either one raised by the API call or the IndexError of
line 34). -/
def user_shared_gems (owner : String) (srv : DriveService) (fuel : Nat) :
    Option (Except String (List NormRow)) :=
  match fetchAll owner srv fuel none with
  | none => none
  | some (Except.error e) => some (Except.error e)
  | some (Except.ok files) =>
    match buildRows files with
    | none => some (Except.error "IndexError: list index out of range")
    | some rows => some (Except.ok (normalizeDF rows))

/-- The sequence of responses reached from a starting token when every
list call succeeds and the chain eventually reaches a response whose
nextPageToken is falsy (absent or empty, the Python exit test of the
loop); the list collects the files of every visited page in order.
This is the precondition under which the pagination loop of the source
terminates. -/
inductive PagesOk (owner : String) (srv : DriveService) :
    Option String → List DriveFile → Prop
  | last (tok : Option String) (resp : ListResponse) :
      srv (buildRequest owner tok) = Except.ok resp →
      truthyS resp.nextPageToken = false →
      PagesOk owner srv tok resp.files
  | step (tok : Option String) (resp : ListResponse) (rest : List DriveFile) :
      srv (buildRequest owner tok) = Except.ok resp →
      truthyS resp.nextPageToken = true →
      PagesOk owner srv resp.nextPageToken rest →
      PagesOk owner srv tok (resp.files ++ rest)

/-- The chain of responses from a starting token reaches a list call
that raises an error, every intermediate response carrying a truthy
nextPageToken (otherwise the loop would already have exited). -/
inductive PagesErr (owner : String) (srv : DriveService) :
    Option String → String → Prop
  | here (tok : Option String) (e : String) :
      srv (buildRequest owner tok) = Except.error e →
      PagesErr owner srv tok e
  | step (tok : Option String) (resp : ListResponse) (e : String) :
      srv (buildRequest owner tok) = Except.ok resp →
      truthyS resp.nextPageToken = true →
      PagesErr owner srv resp.nextPageToken e →
      PagesErr owner srv tok e

theorem fetchAll_mono (owner : String) (srv : DriveService) :
    ∀ fuel fuel2 : Nat, fuel ≤ fuel2 →
      ∀ (tok : Option String) (r : Except String (List DriveFile)),
        fetchAll owner srv fuel tok = some r →
        fetchAll owner srv fuel2 tok = some r := by
  intro fuel
  induction fuel with
  | zero =>
    intro fuel2 _ tok r h
    simp [fetchAll] at h
  | succ n ih =>
    intro fuel2 hle tok r h
    obtain ⟨m, rfl⟩ : ∃ m, fuel2 = m + 1 := ⟨fuel2 - 1, by omega⟩
    rw [fetchAll] at h ⊢
    cases hs : srv (buildRequest owner tok) with
    | error e => simp only [hs] at h ⊢; exact h
    | ok resp =>
      simp only [hs] at h ⊢
      cases ht : truthyS resp.nextPageToken with
      | false =>
        rw [if_neg (by simp [ht])] at h
        rw [if_neg (by simp)]
        exact h
      | true =>
        rw [if_pos ht] at h
        rw [if_pos rfl]
        cases hrec : fetchAll owner srv n resp.nextPageToken with
        | none => simp only [hrec] at h; exact absurd h (by simp)
        | some r2 =>
          have h2 := ih m (by omega) resp.nextPageToken r2 hrec
          simp only [hrec] at h
          simp only [h2]
          exact h

theorem pagesOk_fetchAll (owner : String) (srv : DriveService)
    (tok : Option String) (fs : List DriveFile)
    (h : PagesOk owner srv tok fs) :
    ∃ n, fetchAll owner srv n tok = some (Except.ok fs) := by
  induction h with
  | last tok resp hsrv hfal =>
    refine ⟨1, ?_⟩
    rw [fetchAll]
    simp only [hsrv]
    rw [if_neg (by simp [hfal])]
  | step tok resp rest hsrv htru _ ih =>
    obtain ⟨n, hn⟩ := ih
    refine ⟨n + 1, ?_⟩
    rw [fetchAll]
    simp only [hsrv]
    rw [if_pos htru, hn]

theorem pagesErr_fetchAll (owner : String) (srv : DriveService)
    (tok : Option String) (e : String)
    (h : PagesErr owner srv tok e) :
    ∃ n, fetchAll owner srv n tok = some (Except.error e) := by
  induction h with
  | here tok e hsrv =>
    exact ⟨1, by rw [fetchAll]; simp [hsrv]⟩
  | step tok resp e hsrv htru _ ih =>
    obtain ⟨n, hn⟩ := ih
    refine ⟨n + 1, ?_⟩
    rw [fetchAll]
    simp only [hsrv]
    rw [if_pos htru, hn]

theorem ownerEmailOf_isSome (f : DriveFile) (h : f.owners ≠ some []) :
    ∃ oe, ownerEmailOf f = some oe := by
  unfold ownerEmailOf
  cases ho : f.owners with
  | none => exact ⟨"Unknown", rfl⟩
  | some l =>
    cases l with
    | nil => exact absurd ho h
    | cons o _ => exact ⟨o.emailAddress.getD "Unknown", rfl⟩

theorem buildRows_of_owners (files : List DriveFile)
    (h : ∀ f ∈ files, f.owners ≠ some []) :
    ∃ rows, buildRows files = some rows ∧ rows.length = files.length ∧
      ∀ i : Nat, rows.get? i = (files.get? i).bind rowOfFile := by
  induction files with
  | nil => exact ⟨[], rfl, rfl, fun i => by cases i <;> rfl⟩
  | cons f fs ih =>
    obtain ⟨rows, hrows, hlen, hidx⟩ := ih (fun g hg => h g (List.mem_cons_of_mem f hg))
    obtain ⟨oe, hoe⟩ := ownerEmailOf_isSome f (h f (List.mem_cons_self f fs))
    have hr : ∃ r, rowOfFile f = some r := by
      unfold rowOfFile
      rw [hoe]
      exact ⟨_, rfl⟩
    obtain ⟨r, hr⟩ := hr
    refine ⟨r :: rows, ?_, by simp [hlen], ?_⟩
    · unfold buildRows
      rw [hr, hrows]
    · intro i
      cases i with
      | zero => simp [hr]
      | succ j => simpa using hidx j

/-- A permission entry contributing to the editors list: not the owner
and role writer. -/
def isEditorEntry (oe : String) (p : Permission) : Bool :=
  decide (resolveIdentity p ≠ oe ∧ p.role = some "writer")

/-- A permission entry contributing to the viewers list: not the owner
and role reader or commenter. -/
def isViewerEntry (oe : String) (p : Permission) : Bool :=
  decide (resolveIdentity p ≠ oe ∧ (p.role = some "reader" ∨ p.role = some "commenter"))

theorem collectEV_eq_filter (oe : String) (ps : List Permission) :
    (collectEV oe ps).1 = (ps.filter (isEditorEntry oe)).map resolveIdentity
      ∧ (collectEV oe ps).2 = (ps.filter (isViewerEntry oe)).map resolveIdentity := by
  induction ps with
  | nil => exact ⟨rfl, rfl⟩
  | cons p ps ih =>
    by_cases h1 : resolveIdentity p = oe
    · have he : isEditorEntry oe p = false := by simp [isEditorEntry, h1]
      have hv : isViewerEntry oe p = false := by simp [isViewerEntry, h1]
      simp only [collectEV, h1, if_true, List.filter_cons, he, hv, if_false,
        Bool.false_eq_true, ite_false]
      exact ih
    · by_cases h2 : p.role = some "writer"
      · have he : isEditorEntry oe p = true := by simp [isEditorEntry, h1, h2]
        have hv : isViewerEntry oe p = false := by simp [isViewerEntry, h2]
        simp only [collectEV, h1, if_false, h2, if_true, List.filter_cons, he, hv,
          ite_true, Bool.false_eq_true, ite_false, List.map_cons]
        exact ⟨by simp [ih.1], ih.2⟩
      · by_cases h3 : p.role = some "reader" ∨ p.role = some "commenter"
        · have he : isEditorEntry oe p = false := by simp [isEditorEntry, h2]
          have hv : isViewerEntry oe p = true := by simp [isViewerEntry, h1, h3]
          simp only [collectEV, h1, if_false, h2, h3, if_true, List.filter_cons, he,
            hv, ite_true, Bool.false_eq_true, ite_false, List.map_cons]
          exact ⟨ih.1, by simp [ih.2]⟩
        · have he : isEditorEntry oe p = false := by simp [isEditorEntry, h2]
          have hv : isViewerEntry oe p = false := by
            simp only [isViewerEntry, decide_eq_false_iff_not]
            intro hc
            exact h3 hc.2
          simp only [collectEV, h1, if_false, h2, h3, List.filter_cons, he, hv,
            Bool.false_eq_true, ite_false]
          exact ih

theorem parseDate_bounds (s : String) (y m d : Nat)
    (h : parseDate s = some (y, m, d)) :
    1 ≤ m ∧ m ≤ 12 ∧ 1 ≤ d ∧ d ≤ 31 := by
  unfold parseDate at h
  split at h
  · split at h
    · dsimp only at h
      split at h
      · rename_i hcond
        injection h with h
        injection h with hy h
        injection h with hm hd
        subst hy
        subst hm
        subst hd
        exact hcond
      · exact absurd h (by simp)
    · exact absurd h (by simp)
  · exact absurd h (by simp)

/-- A normalized timestamp cell: empty, or the strftime rendering of a
date with the month and day in calendar range. -/
def dateCell (s : String) : Prop :=
  s = "" ∨ ∃ y m d : Nat, 1 ≤ m ∧ m ≤ 12 ∧ 1 ≤ d ∧ d ≤ 31
    ∧ s = fmtDateMMDDYYYY (y, m, d)

theorem normalizeStr_shape (s : String) : dateCell (normalizeStr s) := by
  unfold dateCell normalizeStr
  cases hp : parseDate s with
  | none => exact Or.inl rfl
  | some ymd =>
    obtain ⟨y, m, d⟩ := ymd
    obtain ⟨h1, h2, h3, h4⟩ := parseDate_bounds s y m d hp
    exact Or.inr ⟨y, m, d, h1, h2, h3, h4, rfl⟩

theorem normalizeOpt_shape (o : Option String) : dateCell (normalizeOpt o) := by
  cases o with
  | none => exact Or.inl rfl
  | some s => exact normalizeStr_shape s

theorem fetchAll_congr (owner : String) (srv srv2 : DriveService)
    (h : ∀ t : Option String, srv (buildRequest owner t) = srv2 (buildRequest owner t)) :
    ∀ (fuel : Nat) (tok : Option String),
      fetchAll owner srv fuel tok = fetchAll owner srv2 fuel tok := by
  intro fuel
  induction fuel with
  | zero => intro tok; rfl
  | succ n ih =>
    intro tok
    rw [fetchAll, fetchAll, h tok]
    cases hx : srv2 (buildRequest owner tok) with
    | error e => rfl
    | ok resp =>
      cases ht : truthyS resp.nextPageToken with
      | false => simp [ht]
      | true => simp [ht, ih resp.nextPageToken]

/-- Concrete owner entry used by the witness theorems. -/
def owAlice : OwnerInfo := { emailAddress := some "alice@x" }

/-- Permission entry of the owner (role owner), resolved to the owner
email and therefore skipped. -/
def permOwner : Permission :=
  { emailAddress := some "alice@x"
    displayName := none
    domain := none
    role := some "owner" }

/-- Permission entry with role writer. -/
def permWriter : Permission :=
  { emailAddress := some "bob@x"
    displayName := some "Bob"
    domain := none
    role := some "writer" }

/-- Permission entry with role reader and no email address. -/
def permViewer : Permission :=
  { emailAddress := none
    displayName := some "Carol"
    domain := none
    role := some "reader" }

/-- A concrete file object, never opened by the impersonated user. -/
def fileA : DriveFile :=
  { name := some "Gem A"
    owners := some [owAlice]
    createdTime := some "2024-01-15T10:00:00.000Z"
    modifiedTime := some "2024-02-20T11:00:00Z"
    webViewLink := some "https://drive/a"
    viewedByMeTime := none
    permissions := some [permOwner, permWriter, permViewer] }

/-- A second concrete file object, without a permissions key. -/
def fileB : DriveFile :=
  { name := some "Gem B"
    owners := some [owAlice]
    createdTime := none
    modifiedTime := some "2024-03-01T00:00:00Z"
    webViewLink := some "https://drive/b"
    viewedByMeTime := some "2024-04-02T09:30:00Z"
    permissions := none }

/-- First page of the two-page witness service. -/
def respP1 : ListResponse := { files := [fileA], nextPageToken := some "page2" }

/-- Second and final page of the two-page witness service. -/
def respP2 : ListResponse := { files := [fileB], nextPageToken := none }

/-- A service answering two pages and then stopping. -/
def srvTwoPages : DriveService := fun req =>
  match req.pageToken with
  | none => Except.ok respP1
  | some t => if t = "page2" then Except.ok respP2 else Except.error "unexpected token"

/-- A service answering a single page holding fileA. -/
def srvOnePage : DriveService := fun _ =>
  Except.ok { files := [fileA], nextPageToken := none }

/-- A service whose list call always raises. -/
def srvRaises : DriveService := fun _ => Except.error "API failure"

/-- C4: if an invocation of the list call along the pagination chain
raises a failure, user_shared_gems returns exactly that failure (for
every sufficient fuel), producing no table: the error value reaches the
caller unchanged, so the function contains no recovery, retry or
fallback. -/
theorem c4_error_propagates (owner : String) (srv : DriveService) (e : String)
    (h : PagesErr owner srv none e) :
    ∃ n, ∀ fuel, n ≤ fuel →
      user_shared_gems owner srv fuel = some (Except.error e) := by
  obtain ⟨n, hn⟩ := pagesErr_fetchAll owner srv none e h
  refine ⟨n, fun fuel hf => ?_⟩
  have h2 := fetchAll_mono owner srv n fuel hf none _ hn
  simp [user_shared_gems, h2]

theorem c4_witness :
    ∃ n, ∀ fuel, n ≤ fuel →
      user_shared_gems "alice@x" srvRaises fuel = some (Except.error "API failure") :=
  c4_error_propagates "alice@x" srvRaises "API failure"
    (PagesErr.here none "API failure" rfl)

/-- C5: the pagination loop passes each nextPageToken into the next
request (the PagesOk relation follows exactly the token chain of
fetchAll) and exits exactly on a response whose nextPageToken is falsy
(the Python test if not page_token: the token is absent or empty, which
covers the claimed carries-no-nextPageToken exit); whenever the chain
of responses starting at the first request eventually reaches such a
response, the loop terminates and accumulates the files of every
visited page in order. -/
theorem c5_pagination_terminates (owner : String) (srv : DriveService)
    (fs : List DriveFile) (h : PagesOk owner srv none fs) :
    ∃ n, ∀ fuel, n ≤ fuel →
      fetchAll owner srv fuel none = some (Except.ok fs) := by
  obtain ⟨n, hn⟩ := pagesOk_fetchAll owner srv none fs h
  exact ⟨n, fun fuel hf => fetchAll_mono owner srv n fuel hf none _ hn⟩

theorem c5_witness :
    ∃ n, ∀ fuel, n ≤ fuel →
      fetchAll "alice@x" srvTwoPages fuel none = some (Except.ok [fileA, fileB]) :=
  c5_pagination_terminates "alice@x" srvTwoPages [fileA, fileB]
    (PagesOk.step none respP1 [fileB] rfl rfl
      (PagesOk.last (some "page2") respP2 rfl rfl))

theorem fieldsSpec_has_permissions :
    ∃ a b : String, fieldsSpec = a ++ "permissions" ++ b :=
  ⟨"nextPageToken, files(id, name, owners, createdTime, modifiedTime, webViewLink, viewedByMeTime, ", ")", by decide⟩

/-- C6: every request the loop can issue is built by buildRequest, and
that request queries by the Gem MIME type and the owner membership,
carries pageSize 100 and the current page token, and asks for a field
set including permissions; the final conjunct shows the loop consults
the service only at requests of this shape. -/
theorem c6_request_shape (owner : String) (tok : Option String)
    (srv srv2 : DriveService) (fuel : Nat)
    (h : ∀ t : Option String, srv (buildRequest owner t) = srv2 (buildRequest owner t)) :
    (buildRequest owner tok).q = queryOwnerPart owner ++ " and trashed = false"
      ∧ queryOwnerPart owner
          = "mimeType = " ++ sq ++ GEM_MIME_TYPE ++ sq ++ " and " ++ sq
              ++ owner ++ sq ++ " in owners"
      ∧ (buildRequest owner tok).pageSize = 100
      ∧ (buildRequest owner tok).pageToken = tok
      ∧ (∃ a b, (buildRequest owner tok).fields = a ++ "permissions" ++ b)
      ∧ fetchAll owner srv fuel tok = fetchAll owner srv2 fuel tok := by
  exact ⟨rfl, rfl, rfl, rfl, fieldsSpec_has_permissions,
    fetchAll_congr owner srv srv2 h fuel tok⟩

theorem c6_witness :
    (buildRequest "alice@x" none).q = queryOwnerPart "alice@x" ++ " and trashed = false"
      ∧ queryOwnerPart "alice@x"
          = "mimeType = " ++ sq ++ GEM_MIME_TYPE ++ sq ++ " and " ++ sq
              ++ "alice@x" ++ sq ++ " in owners"
      ∧ (buildRequest "alice@x" none).pageSize = 100
      ∧ (buildRequest "alice@x" none).pageToken = none
      ∧ (∃ a b, (buildRequest "alice@x" none).fields = a ++ "permissions" ++ b)
      ∧ fetchAll "alice@x" srvOnePage 1 none = fetchAll "alice@x" srvOnePage 1 none :=
  c6_request_shape "alice@x" none srvOnePage srvOnePage 1 (fun _ => rfl)

/-- C7: stated falsity at a concrete input.  The claim describes the
paginated list call as executed inside a try construct whose result is
returned; the code has no try at all, so with a service whose call
raises, the routine yields the raw uncaught error and no table is
returned. -/
theorem c7_counterexample :
    user_shared_gems "alice@x" srvRaises 1 = some (Except.error "API failure")
      ∧ ¬ ∃ rows : List NormRow,
          user_shared_gems "alice@x" srvRaises 1 = some (Except.ok rows) := by
  have h1 : user_shared_gems "alice@x" srvRaises 1
      = some (Except.error "API failure") := rfl
  refine ⟨h1, ?_⟩
  rintro ⟨rows, hr⟩
  rw [h1] at hr
  exact absurd hr (by simp)

/-- C7 amended: the routine has no try construct; the outcome of the
paginated list call flows to the return unguarded, and a raised failure
reaches the caller unchanged. -/
theorem c7_no_local_handling (owner : String) (srv : DriveService)
    (fuel : Nat) (e : String)
    (h : fetchAll owner srv fuel none = some (Except.error e)) :
    user_shared_gems owner srv fuel = some (Except.error e) := by
  simp [user_shared_gems, h]

theorem c7_witness :
    user_shared_gems "alice@x" srvRaises 1 = some (Except.error "API failure") :=
  c7_no_local_handling "alice@x" srvRaises 1 "API failure" rfl

/-- C10: the query string of every request additionally restricts to
trashed = false, beyond the MIME type and owner restrictions the spec
mentions, so the listing never enumerates trashed files. -/
theorem c10_trashed_clause (owner : String) (tok : Option String) :
    (buildRequest owner tok).q = queryOwnerPart owner ++ " and trashed = false"
      ∧ ∃ pre : String, (buildRequest owner tok).q = pre ++ " and trashed = false" :=
  ⟨rfl, queryOwnerPart owner, rfl⟩

theorem firstTruthy_of_falsy (o : Option String) (d : String)
    (h : truthyS o = false) : firstTruthy o d = d := by
  cases o with
  | none => rfl
  | some s =>
    have hs : s = "" := by simpa [truthyS] using h
    subst hs
    rfl

theorem firstTruthy_of_truthy (o : Option String) (d : String)
    (h : truthyS o = true) : ∃ s, o = some s ∧ s ≠ "" ∧ firstTruthy o d = s := by
  cases o with
  | none => simp [truthyS] at h
  | some s =>
    have hs : s ≠ "" := by simpa [truthyS] using h
    exact ⟨s, rfl, hs, by simp [firstTruthy, hs]⟩

/-- The row computed for fileA (editors from the writer entry, viewers
from the reader entry, the owner entry skipped, Opened by Me defaulted
to Never). -/
def rowA : Row :=
  { fileName := some "Gem A"
    url := some "https://drive/a"
    owner := "alice@x"
    editors := "bob@x"
    viewers := "Carol"
    created := some "2024-01-15T10:00:00.000Z"
    modified := some "2024-02-20T11:00:00Z"
    openedByMe := "Never" }

/-- The normalization of rowA. -/
def normRowA : NormRow :=
  { fileName := some "Gem A"
    url := some "https://drive/a"
    owner := "alice@x"
    editors := "bob@x"
    viewers := "Carol"
    created := "01/15/2024"
    modified := "02/20/2024"
    openedByMe := "" }

/-- C1: every file of every page of the response yields exactly one row
of the returned table, in the order the files were received, and each
row is the eight-column record built by rowOfFile (File Name, URL,
Owner, Editor(s), Viewer(s), Created, Modified, Opened by Me).  The
second hypothesis excludes files whose owners key holds an empty list,
on which the code raises IndexError; the listing cannot return such a
file, since the query requires the owner among the owners. -/
theorem c1_one_row_per_file (owner : String) (srv : DriveService) (fuel : Nat)
    (files : List DriveFile)
    (hf : fetchAll owner srv fuel none = some (Except.ok files))
    (h : ∀ f ∈ files, f.owners ≠ some []) :
    ∃ rows, buildRows files = some rows
      ∧ user_shared_gems owner srv fuel = some (Except.ok (normalizeDF rows))
      ∧ rows.length = files.length
      ∧ (normalizeDF rows).length = files.length
      ∧ ∀ i : Nat, rows.get? i = (files.get? i).bind rowOfFile := by
  obtain ⟨rows, hrows, hlen, hidx⟩ := buildRows_of_owners files h
  refine ⟨rows, hrows, ?_, hlen, by simp [normalizeDF, hlen], hidx⟩
  simp only [user_shared_gems, hf, hrows]

theorem c1_witness :
    ∃ rows, buildRows [fileA, fileB] = some rows
      ∧ user_shared_gems "alice@x" srvTwoPages 2 = some (Except.ok (normalizeDF rows))
      ∧ rows.length = [fileA, fileB].length
      ∧ (normalizeDF rows).length = [fileA, fileB].length
      ∧ ∀ i : Nat, rows.get? i = ([fileA, fileB].get? i).bind rowOfFile :=
  c1_one_row_per_file "alice@x" srvTwoPages 2 [fileA, fileB] (by decide) (by decide)

/-- C2: for every file that yields a row, the permission entries are
partitioned exactly as the claim states: entries resolving to the owner
email are skipped, role writer goes to the editors list, roles reader
and commenter to the viewers list, all other roles to neither, and each
list is rendered comma-plus-space-joined into the row. -/
theorem c2_partition (f : DriveFile) (r : Row) (h : rowOfFile f = some r) :
    ∃ oe, ownerEmailOf f = some oe
      ∧ (collectEV oe (f.permissions.getD [])).1
          = ((f.permissions.getD []).filter (isEditorEntry oe)).map resolveIdentity
      ∧ (collectEV oe (f.permissions.getD [])).2
          = ((f.permissions.getD []).filter (isViewerEntry oe)).map resolveIdentity
      ∧ r.editors = String.intercalate ", " (collectEV oe (f.permissions.getD [])).1
      ∧ r.viewers = String.intercalate ", " (collectEV oe (f.permissions.getD [])).2 := by
  unfold rowOfFile at h
  cases hoe : ownerEmailOf f with
  | none => rw [hoe] at h; exact absurd h (by simp)
  | some oe =>
    simp only [hoe] at h
    injection h with h
    subst h
    exact ⟨oe, rfl, (collectEV_eq_filter oe (f.permissions.getD [])).1,
      (collectEV_eq_filter oe (f.permissions.getD [])).2, rfl, rfl⟩

theorem c2_witness :
    ∃ oe, ownerEmailOf fileA = some oe
      ∧ (collectEV oe (fileA.permissions.getD [])).1
          = ((fileA.permissions.getD []).filter (isEditorEntry oe)).map resolveIdentity
      ∧ (collectEV oe (fileA.permissions.getD [])).2
          = ((fileA.permissions.getD []).filter (isViewerEntry oe)).map resolveIdentity
      ∧ rowA.editors = String.intercalate ", " (collectEV oe (fileA.permissions.getD [])).1
      ∧ rowA.viewers = String.intercalate ", " (collectEV oe (fileA.permissions.getD [])).2 :=
  c2_partition fileA rowA (by decide)

/-- C3: in a returned table, every Created, Modified and Opened by Me
cell is either empty or the month slash day slash year rendering of a
parsed date; unparseable or absent values become the empty string. -/
theorem c3_normalized_cells (owner : String) (srv : DriveService) (fuel : Nat)
    (rows : List NormRow) (r : NormRow)
    (h : user_shared_gems owner srv fuel = some (Except.ok rows))
    (hr : r ∈ rows) :
    dateCell r.created ∧ dateCell r.modified ∧ dateCell r.openedByMe := by
  unfold user_shared_gems at h
  cases hF : fetchAll owner srv fuel none with
  | none => rw [hF] at h; exact absurd h (by simp)
  | some res =>
    simp only [hF] at h
    cases res with
    | error e => exact absurd h (by simp)
    | ok files =>
      cases hB : buildRows files with
      | none => simp only [hB] at h; exact absurd h (by simp)
      | some rows0 =>
        simp only [hB] at h
        injection h with h
        injection h with h
        subst h
        obtain ⟨r0, _, rfl⟩ := List.mem_map.mp hr
        exact ⟨normalizeOpt_shape r0.created, normalizeOpt_shape r0.modified,
          normalizeStr_shape r0.openedByMe⟩

theorem c3_witness :
    dateCell normRowA.created ∧ dateCell normRowA.modified
      ∧ dateCell normRowA.openedByMe :=
  c3_normalized_cells "alice@x" srvOnePage 1 [normRowA] normRowA (by decide) (by decide)

/-- C8: the identity contributed by a permission entry follows the fixed
priority chain emailAddress, then displayName, then domain, each taken
when present and non-empty, with the literal Unknown as final default. -/
theorem c8_identity_chain (p : Permission) :
    (∃ s, p.emailAddress = some s ∧ s ≠ "" ∧ resolveIdentity p = s)
    ∨ (truthyS p.emailAddress = false
        ∧ ∃ s, p.displayName = some s ∧ s ≠ "" ∧ resolveIdentity p = s)
    ∨ (truthyS p.emailAddress = false ∧ truthyS p.displayName = false
        ∧ ∃ s, p.domain = some s ∧ s ≠ "" ∧ resolveIdentity p = s)
    ∨ (truthyS p.emailAddress = false ∧ truthyS p.displayName = false
        ∧ truthyS p.domain = false ∧ resolveIdentity p = "Unknown") := by
  cases he : truthyS p.emailAddress with
  | true =>
    obtain ⟨s, hs, hne, hft⟩ :=
      firstTruthy_of_truthy p.emailAddress
        (firstTruthy p.displayName (firstTruthy p.domain "Unknown")) he
    exact Or.inl ⟨s, hs, hne, hft⟩
  | false =>
    cases hd : truthyS p.displayName with
    | true =>
      obtain ⟨s, hs, hne, hft⟩ :=
        firstTruthy_of_truthy p.displayName (firstTruthy p.domain "Unknown") hd
      refine Or.inr (Or.inl ⟨rfl, s, hs, hne, ?_⟩)
      unfold resolveIdentity
      rw [firstTruthy_of_falsy p.emailAddress _ he, hft]
    | false =>
      cases hdo : truthyS p.domain with
      | true =>
        obtain ⟨s, hs, hne, hft⟩ := firstTruthy_of_truthy p.domain "Unknown" hdo
        refine Or.inr (Or.inr (Or.inl ⟨rfl, rfl, s, hs, hne, ?_⟩))
        unfold resolveIdentity
        rw [firstTruthy_of_falsy p.emailAddress _ he,
          firstTruthy_of_falsy p.displayName _ hd, hft]
      | false =>
        refine Or.inr (Or.inr (Or.inr ⟨rfl, rfl, rfl, ?_⟩))
        unfold resolveIdentity
        rw [firstTruthy_of_falsy p.emailAddress _ he,
          firstTruthy_of_falsy p.displayName _ hd,
          firstTruthy_of_falsy p.domain _ hdo]

/-- C9: a file without a viewedByMeTime key gets the placeholder Never
as its Opened by Me value, and the placeholder fails datetime parsing
during normalization, leaving the empty string in the final table. -/
theorem c9_never_blank (f : DriveFile) (r : Row)
    (h1 : f.viewedByMeTime = none) (h2 : rowOfFile f = some r) :
    r.openedByMe = "Never" ∧ (normalizeRow r).openedByMe = "" := by
  unfold rowOfFile at h2
  cases hoe : ownerEmailOf f with
  | none => rw [hoe] at h2; exact absurd h2 (by simp)
  | some oe =>
    simp only [hoe] at h2
    injection h2 with h2
    subst h2
    constructor
    · show f.viewedByMeTime.getD "Never" = "Never"
      rw [h1]
      rfl
    · show normalizeStr (f.viewedByMeTime.getD "Never") = ""
      rw [h1]
      rfl

theorem c9_witness :
    rowA.openedByMe = "Never" ∧ (normalizeRow rowA).openedByMe = "" :=
  c9_never_blank fileA rowA rfl (by decide)

end GemReports
